import Mathlib

/-!
Verification of the pvmfw exception classification/dispatch engine
(`pvmfw/src/exceptions.rs`) and the verified-descriptor store
(`pvmfw/avb/src/descriptor/mod.rs`), as a shallow embedding.

Machine integers (`usize`, `u64`) are embedded as `Nat`; all the bit masks
involved fit in 64 bits and the bitwise operations are written out with the
64-bit complement computed explicitly. Stateful Rust code is embedded as
explicit state passing; handlers whose observable behaviour matters (logging,
reboot) return an explicit event trace.
-/

namespace Pvmfw

/-! ## Exception syndrome classification (`exceptions.rs`) -/

/-- `enum Esr` of `exceptions.rs`: the semantic fault categories. The raw
syndrome is a `usize`, embedded as `Nat`. -/
inductive Esr where
  | DataAbortTranslationFault
  | DataAbortPermissionFault
  | DataAbortSyncExternalAbort
  | Unknown (esr : Nat)
deriving DecidableEq

/-- `Esr::EXT_DABT_32BIT`. -/
def Esr.EXT_DABT_32BIT : Nat := 0x96000010

/-- `Esr::TRANSL_FAULT_BASE_32BIT`. -/
def Esr.TRANSL_FAULT_BASE_32BIT : Nat := 0x96000004

/-- `Esr::TRANSL_FAULT_ISS_MASK_32BIT = !0x143` on a 64-bit `usize`:
all 64 bits of `0x143` flipped. -/
def Esr.TRANSL_FAULT_ISS_MASK_32BIT : Nat := 0xFFFFFFFFFFFFFEBC

/-- `Esr::PERM_FAULT_BASE_32BIT`. -/
def Esr.PERM_FAULT_BASE_32BIT : Nat := 0x9600004C

/-- `Esr::PERM_FAULT_ISS_MASK_32BIT = !0x103` on a 64-bit `usize`. -/
def Esr.PERM_FAULT_ISS_MASK_32BIT : Nat := 0xFFFFFFFFFFFFFEFC

/-- `impl From<usize> for Esr` of `exceptions.rs` (the spec's `classify`):
exact match for the external abort first, then the two masked matches,
otherwise `Unknown(raw)`. -/
def Esr.ofUsize (esr : Nat) : Esr :=
  if esr = Esr.EXT_DABT_32BIT then
    Esr.DataAbortSyncExternalAbort
  else if esr &&& Esr.TRANSL_FAULT_ISS_MASK_32BIT = Esr.TRANSL_FAULT_BASE_32BIT then
    Esr.DataAbortTranslationFault
  else if esr &&& Esr.PERM_FAULT_ISS_MASK_32BIT = Esr.PERM_FAULT_BASE_32BIT then
    Esr.DataAbortPermissionFault
  else
    Esr.Unknown esr

/-! ## Fault dispatch (`exceptions.rs`) -/

/-- Modelled from the spec: the memory-tracker collaborator's error type
(`vmbase::memory::MemoryTrackerError`, defined outside `src/`). The spec treats
it as an opaque tracker-reported failure, so it is embedded as an opaque code. -/
structure MemoryTrackerError where
  code : Nat
deriving DecidableEq

/-- `enum HandleExceptionError` of `exceptions.rs`. -/
inductive HandleExceptionError where
  | PageTableUnavailable
  | PageTableNotInitialized
  | InternalError (e : MemoryTrackerError)
  | UnknownException
deriving DecidableEq

/-- Modelled from the spec: the memory-tracker collaborator (consumed, not
implemented, by the code under verification): `handle_mmio_fault(address)` and
`handle_permission_fault(address)`, each returning `Ok(())` or a tracker error.
Only the returned results are observable to the dispatcher, so the tracker is
embedded as its two result functions. -/
structure MemoryTracker where
  handle_mmio_fault : Nat → Except MemoryTrackerError Unit
  handle_permission_fault : Nat → Except MemoryTrackerError Unit

/-- The Global Memory State as the dispatcher sees it through
`MEMORY.try_lock()`: either the spin lock is contended, or it is acquired and
holds `None` (uninitialized) or `Some` tracker. -/
inductive LockState where
  | contended
  | available (mem : Option MemoryTracker)

/-- `handle_translation_fault` of `exceptions.rs`: non-blocking acquisition of
the Global Memory State, then delegation to `handle_mmio_fault`, wrapping the
collaborator's error as `InternalError` (the `From` impl behind `?`). -/
def handle_translation_fault (far : Nat) (st : LockState) :
    Except HandleExceptionError Unit :=
  match st with
  | .contended => .error .PageTableUnavailable
  | .available none => .error .PageTableNotInitialized
  | .available (some memory) =>
      (memory.handle_mmio_fault far).mapError HandleExceptionError.InternalError

/-- `handle_permission_fault` of `exceptions.rs`: identical acquisition
discipline, delegating to the tracker's `handle_permission_fault`. -/
def handle_permission_fault (far : Nat) (st : LockState) :
    Except HandleExceptionError Unit :=
  match st with
  | .contended => .error .PageTableUnavailable
  | .available none => .error .PageTableNotInitialized
  | .available (some memory) =>
      (memory.handle_permission_fault far).mapError HandleExceptionError.InternalError

/-- `handle_exception` of `exceptions.rs`. -/
def handle_exception (esr : Esr) (far : Nat) (st : LockState) :
    Except HandleExceptionError Unit :=
  match esr with
  | .DataAbortTranslationFault => handle_translation_fault far st
  | .DataAbortPermissionFault => handle_permission_fault far st
  | _ => .error .UnknownException

/-! ## Exception entry points as event traces (`exceptions.rs`) -/

/-- Observable events of a handler invocation: acquiring/releasing the scoped
logger suppression, the `eprintln!` calls (identity line, error line, the
`{esr}, far=…, elr=…` line, and the bare `esr=…` line of the fail-stop
handlers), and the call to the non-returning reboot primitive. -/
inductive Event where
  | suppressAcquire
  | suppressRelease
  | log (s : String)
  | logError (e : HandleExceptionError)
  | logDetails (esr : Esr) (far elr : Nat)
  | logEsr (esr : Nat)
  | reboot
deriving DecidableEq

/-- Modelled from the spec: `vmbase::memory::page_4kb_of` (outside `src/`),
the 4 KiB page containing an address. -/
def page_4kb_of (addr : Nat) : Nat := addr / 4096 * 4096

/-- `const UART_PAGE: usize = page_4kb_of(console::BASE_ADDRESS)`, parametrised
by the console base address (`vmbase::console::BASE_ADDRESS` is outside `src/`
and its value is irrelevant to the claims). -/
def UART_PAGE (consoleBase : Nat) : Nat := page_4kb_of consoleBase

/-- `handling_uart_exception` of `exceptions.rs`: the fault is a synchronous
external abort whose fault address lies on the UART page. -/
def handling_uart_exception (consoleBase : Nat) (esr : Esr) (far : Nat) : Bool :=
  decide (esr = Esr.DataAbortSyncExternalAbort) &&
    decide (page_4kb_of far = UART_PAGE consoleBase)

/-- `sync_exception_current` of `exceptions.rs`, as the event trace of one
invocation. The raw syndrome and fault address are read from machine state
(`esr_el1`, `far_el1`), embedded as the parameters `esrRaw` and `far`; the
Global Memory State as seen through the lock is the parameter `st`.

The trace mirrors the Rust control flow: the suppression guard is acquired
first; on a successful dispatch the function returns normally and the guard is
dropped at the end of the scope; on a failed dispatch the three `eprintln!`
lines are emitted unless the fault is a UART-page external abort, and then the
non-returning `reboot()` is called — the call never returns, so the scope is
never exited and the guard's destructor never runs on that path. -/
def sync_exception_current (consoleBase esrRaw far elr : Nat) (st : LockState) :
    List Event :=
  let esr := Esr.ofUsize esrRaw
  match handle_exception esr far st with
  | .ok _ => [.suppressAcquire, .suppressRelease]
  | .error e =>
      .suppressAcquire ::
        ((if handling_uart_exception consoleBase esr far then
            []
          else
            [.log "sync_exception_current", .logError e, .logDetails esr far elr])
          ++ [.reboot])

/-- `irq_current` of `exceptions.rs`. -/
def irq_current (_elr _spsr : Nat) : List Event :=
  [.log "irq_current", .reboot]

/-- `fiq_current` of `exceptions.rs`. -/
def fiq_current (_elr _spsr : Nat) : List Event :=
  [.log "fiq_current", .reboot]

/-- `serr_current` of `exceptions.rs`; `esrRaw` is the value it reads from
`esr_el1`. -/
def serr_current (esrRaw _elr _spsr : Nat) : List Event :=
  [.log "serr_current", .logEsr esrRaw, .reboot]

/-- `sync_lower` of `exceptions.rs`. -/
def sync_lower (esrRaw _elr _spsr : Nat) : List Event :=
  [.log "sync_lower", .logEsr esrRaw, .reboot]

/-- `irq_lower` of `exceptions.rs`. -/
def irq_lower (_elr _spsr : Nat) : List Event :=
  [.log "irq_lower", .reboot]

/-- `fiq_lower` of `exceptions.rs`. -/
def fiq_lower (_elr _spsr : Nat) : List Event :=
  [.log "fiq_lower", .reboot]

/-- `serr_lower` of `exceptions.rs`. -/
def serr_lower (esrRaw _elr _spsr : Nat) : List Event :=
  [.log "serr_lower", .logEsr esrRaw, .reboot]

/-- A trace invokes the reboot primitive exactly once, as its final event. -/
def rebootsExactlyOnce (t : List Event) : Prop :=
  ∃ pre, t = pre ++ [Event.reboot] ∧ Event.reboot ∉ pre

/-! ## The verified descriptor store (`pvmfw/avb/src/descriptor/mod.rs`) -/

/-- Modelled from the spec: `PartitionName` (defined in `partition.rs`, outside
`src/`) is a closed enumeration of the known boot partitions; the spec fixes
that it is a closed set whose size gives the store capacity and that at least
three distinct known partitions exist (Scenario 1 pushes three). -/
inductive PartitionName where
  | kernel
  | initrdNormal
  | initrdDebug
deriving DecidableEq

/-- `PartitionName::NUM_OF_KNOWN_PARTITIONS`: the size of the closed
known-partition set, which is also the store's fixed capacity. -/
def PartitionName.NUM_OF_KNOWN_PARTITIONS : Nat := 3

instance : Fintype PartitionName :=
  ⟨⟨{PartitionName.kernel, PartitionName.initrdNormal, PartitionName.initrdDebug}, by decide⟩,
    by intro x; cases x <;> decide⟩

theorem PartitionName.card_eq :
    Fintype.card PartitionName = PartitionName.NUM_OF_KNOWN_PARTITIONS := rfl

/-- Modelled from the spec: `HashDescriptor` (defined in `descriptors.rs`,
outside `src/`): `{partition_name, digest: fixed-length byte array, image_size,
flags}`. The store code under `src/` uses only `partition_name` equality. -/
structure HashDescriptor where
  partition_name : PartitionName
  digest : List Nat
  image_size : Nat
  flags : Nat
deriving DecidableEq

/-- Modelled from the spec: `enum Descriptor` (defined in `descriptors.rs`,
outside `src/`); only the Hash variant is recognized by this component. -/
inductive Descriptor where
  | Hash (d : HashDescriptor)

/-- Modelled from the spec: the `Io`-class verification error
(`AvbIOError`, defined in `error.rs`, outside `src/`); the store code under
`src/` uses only the `Io` constructor. -/
inductive AvbIOError where
  | Io
deriving DecidableEq

/-- Modelled from the spec: the slot-verification error type
(`AvbSlotVerifyError`, defined in `error.rs`, outside `src/`); the store code
under `src/` uses `Io` and `InvalidMetadata`. -/
inductive AvbSlotVerifyError where
  | Io
  | InvalidMetadata
deriving DecidableEq

/-- `struct Descriptors` of `descriptor/mod.rs`: the fixed-capacity
(`NUM_OF_KNOWN_PARTITIONS`) vector of hash descriptors, embedded as the list of
its elements; the capacity bound lives in the push operation (the backing
`ArrayVec::push` panics when full). -/
structure Descriptors where
  hash_descriptors : List HashDescriptor
deriving DecidableEq

/-- Outcome of a push on the store: success with the new store contents, an
`Err` return with the store contents at the return (a rejected push returns
before mutating), or the out-of-capacity panic of the backing
`ArrayVec::push`. -/
inductive PushOutcome where
  | ok (s : Descriptors)
  | err (e : AvbIOError) (s : Descriptors)
  | panicked
deriving DecidableEq

/-- `Descriptors::num_hash_descriptor`. -/
def Descriptors.num_hash_descriptor (s : Descriptors) : Nat :=
  s.hash_descriptors.length

/-- `Descriptors::find_hash_descriptor`: first stored descriptor with the given
`partition_name`, else `InvalidMetadata`. -/
def Descriptors.find_hash_descriptor (s : Descriptors) (partition_name : PartitionName) :
    Except AvbSlotVerifyError HashDescriptor :=
  match s.hash_descriptors.find? (fun d => decide (d.partition_name = partition_name)) with
  | some d => .ok d
  | none => .error .InvalidMetadata

/-- `Descriptors::push_hash_descriptor`: reject a duplicate `partition_name` as
`Io` before touching the store; otherwise `ArrayVec::push`, which appends when
below capacity and panics when full. -/
def Descriptors.push_hash_descriptor (s : Descriptors) (descriptor : HashDescriptor) :
    PushOutcome :=
  if s.hash_descriptors.any (fun d => decide (d.partition_name = descriptor.partition_name)) then
    .err .Io s
  else if s.hash_descriptors.length < PartitionName.NUM_OF_KNOWN_PARTITIONS then
    .ok ⟨s.hash_descriptors ++ [descriptor]⟩
  else
    .panicked

/-- `Descriptors::push`: dispatch on the descriptor kind; only Hash exists. -/
def Descriptors.push (s : Descriptors) (descriptor : Descriptor) : PushOutcome :=
  match descriptor with
  | .Hash d => s.push_hash_descriptor d

/-- Modelled from the spec: mapping a raw record's partition identifier into
the closed known-partition set (`PartitionName::try_from` in `partition.rs`,
outside `src/`); an unrecognized identifier is rejected `Io`-class. -/
def PartitionName.tryFrom : String → Except AvbIOError PartitionName
  | "kernel" => .ok .kernel
  | "initrd_normal" => .ok .initrdNormal
  | "initrd_debug" => .ok .initrdDebug
  | _ => .error .Io

/-- Modelled from the spec: per-callback handling of a raw Hash record
(`try_check_and_save_descriptor` with `HashDescriptor::try_from`, partly
outside `src/`): map the partition identifier; an unrecognized identifier is
rejected with the store untouched; otherwise push the typed descriptor. -/
def save_hash_record (s : Descriptors) (id : String) (digest : List Nat)
    (image_size flags : Nat) : PushOutcome :=
  match PartitionName.tryFrom id with
  | .error e => .err e s
  | .ok partition_name =>
      s.push_hash_descriptor ⟨partition_name, digest, image_size, flags⟩

/-- The stores reachable from the empty store by push operations (the reads
are pure and leave the store unchanged). A rejected push returns the store at
the point of rejection. -/
inductive Reachable : Descriptors → Prop where
  | empty : Reachable ⟨[]⟩
  | push_ok {s s' : Descriptors} {d : HashDescriptor} :
      Reachable s → s.push_hash_descriptor d = .ok s' → Reachable s'
  | push_err {s s' : Descriptors} {d : HashDescriptor} {e : AvbIOError} :
      Reachable s → s.push_hash_descriptor d = .err e s' → Reachable s'

/-! ## Store lemmas -/

/-- A successful push appended the descriptor, its partition name was fresh,
and the store was below capacity. -/
theorem push_hash_descriptor_ok_inv {s s' : Descriptors} {d : HashDescriptor}
    (h : s.push_hash_descriptor d = .ok s') :
    s'.hash_descriptors = s.hash_descriptors ++ [d] ∧
    d.partition_name ∉ s.hash_descriptors.map HashDescriptor.partition_name ∧
    s.hash_descriptors.length < PartitionName.NUM_OF_KNOWN_PARTITIONS := by
  unfold Descriptors.push_hash_descriptor at h
  by_cases hdup :
      s.hash_descriptors.any (fun x => decide (x.partition_name = d.partition_name)) = true
  · rw [if_pos hdup] at h
    cases h
  · rw [if_neg hdup] at h
    by_cases hlen : s.hash_descriptors.length < PartitionName.NUM_OF_KNOWN_PARTITIONS
    · rw [if_pos hlen] at h
      cases h
      refine ⟨rfl, ?_, hlen⟩
      simp only [List.any_eq_true, decide_eq_true_eq] at hdup
      simp only [List.mem_map]
      rintro ⟨x, hx, hEq⟩
      exact hdup ⟨x, hx, hEq⟩
    · rw [if_neg hlen] at h
      cases h

/-- A rejected push is `Io`-class and returns the store unchanged. -/
theorem push_hash_descriptor_err_inv {s s' : Descriptors} {d : HashDescriptor}
    {e : AvbIOError} (h : s.push_hash_descriptor d = .err e s') :
    e = AvbIOError.Io ∧ s' = s := by
  unfold Descriptors.push_hash_descriptor at h
  by_cases hdup :
      s.hash_descriptors.any (fun x => decide (x.partition_name = d.partition_name)) = true
  · rw [if_pos hdup] at h
    cases h
    exact ⟨rfl, rfl⟩
  · rw [if_neg hdup] at h
    by_cases hlen : s.hash_descriptors.length < PartitionName.NUM_OF_KNOWN_PARTITIONS
    · rw [if_pos hlen] at h
      cases h
    · rw [if_neg hlen] at h
      cases h

/-- Every reachable store has pairwise-distinct partition names. -/
theorem reachable_nodup {s : Descriptors} (h : Reachable s) :
    (s.hash_descriptors.map HashDescriptor.partition_name).Nodup := by
  induction h with
  | empty => simp
  | push_ok hr heq ih =>
      obtain ⟨hl, hnotin, -⟩ := push_hash_descriptor_ok_inv heq
      rw [hl, List.map_append]
      simp only [List.map_cons, List.map_nil, List.nodup_append, List.nodup_cons,
        List.not_mem_nil, not_false_iff, List.nodup_nil, and_true, List.disjoint_singleton]
      exact ⟨ih, trivial, hnotin⟩
  | push_err hr heq ih =>
      obtain ⟨-, hs⟩ := push_hash_descriptor_err_inv heq
      rw [hs]
      exact ih

/-! ## Claims about the descriptor store -/

/-- C4: pushing a Hash record whose `partition_name` already has a stored
descriptor returns the `Io`-class error and leaves the store completely
unchanged: the outcome is `err Io` carrying exactly the store as it was before
the rejected push, so the count and every previously stored descriptor are as
before. -/
theorem claim_C4_duplicate_rejected_store_unchanged (s : Descriptors)
    (d : HashDescriptor)
    (h : ∃ x ∈ s.hash_descriptors, x.partition_name = d.partition_name) :
    s.push_hash_descriptor d = .err AvbIOError.Io s := by
  obtain ⟨x, hx, hname⟩ := h
  have hany :
      s.hash_descriptors.any (fun y => decide (y.partition_name = d.partition_name)) = true := by
    simp only [List.any_eq_true, decide_eq_true_eq]
    exact ⟨x, hx, hname⟩
  unfold Descriptors.push_hash_descriptor
  rw [if_pos hany]

/-- Witness for C4 at a concrete store and duplicate descriptor. -/
theorem claim_C4_witness :
    (Descriptors.mk [⟨PartitionName.kernel, [], 0, 0⟩]).push_hash_descriptor
      ⟨PartitionName.kernel, [1], 1, 1⟩ =
      .err AvbIOError.Io (Descriptors.mk [⟨PartitionName.kernel, [], 0, 0⟩]) :=
  claim_C4_duplicate_rejected_store_unchanged _ _
    ⟨⟨PartitionName.kernel, [], 0, 0⟩, by decide, rfl⟩

/-- C5: the predicate "partition names of stored hash descriptors are pairwise
distinct" holds of every store reachable from the empty store by the store's
operations (pushes, succeeding or rejected; the reads are pure and leave the
store unchanged). -/
theorem claim_C5_partition_names_distinct (s : Descriptors) (h : Reachable s) :
    (s.hash_descriptors.map HashDescriptor.partition_name).Nodup :=
  reachable_nodup h

/-- Witness for C5 at a concrete reachable store. -/
theorem claim_C5_witness :
    ((Descriptors.mk [⟨PartitionName.kernel, [], 0, 0⟩]).hash_descriptors.map
      HashDescriptor.partition_name).Nodup :=
  claim_C5_partition_names_distinct _ (Reachable.push_ok Reachable.empty rfl)

/-- C6: from the empty store, pushing three well-formed Hash records for three
distinct known partitions succeeds; afterwards `num_hash_descriptor` is `3` and
`find_hash_descriptor` on each partition returns exactly the descriptor pushed
for it; a subsequent record whose partition identifier is outside the known set
is rejected with the store unchanged, so the count stays `3`. -/
theorem claim_C6_three_partition_round_trip (d1 d2 d3 : HashDescriptor)
    (h12 : d1.partition_name ≠ d2.partition_name)
    (h13 : d1.partition_name ≠ d3.partition_name)
    (h23 : d2.partition_name ≠ d3.partition_name) :
    Descriptors.push_hash_descriptor ⟨[]⟩ d1 = .ok ⟨[d1]⟩ ∧
    Descriptors.push_hash_descriptor ⟨[d1]⟩ d2 = .ok ⟨[d1, d2]⟩ ∧
    Descriptors.push_hash_descriptor ⟨[d1, d2]⟩ d3 = .ok ⟨[d1, d2, d3]⟩ ∧
    Descriptors.num_hash_descriptor ⟨[d1, d2, d3]⟩ = 3 ∧
    Descriptors.find_hash_descriptor ⟨[d1, d2, d3]⟩ d1.partition_name = .ok d1 ∧
    Descriptors.find_hash_descriptor ⟨[d1, d2, d3]⟩ d2.partition_name = .ok d2 ∧
    Descriptors.find_hash_descriptor ⟨[d1, d2, d3]⟩ d3.partition_name = .ok d3 ∧
    ∀ id digest image_size flags,
      PartitionName.tryFrom id = .error AvbIOError.Io →
      save_hash_record ⟨[d1, d2, d3]⟩ id digest image_size flags =
        .err AvbIOError.Io ⟨[d1, d2, d3]⟩ := by
  refine ⟨rfl, ?_, ?_, rfl, ?_, ?_, ?_, ?_⟩
  · simp [Descriptors.push_hash_descriptor, PartitionName.NUM_OF_KNOWN_PARTITIONS, h12]
  · simp [Descriptors.push_hash_descriptor, PartitionName.NUM_OF_KNOWN_PARTITIONS, h13, h23]
  · simp [Descriptors.find_hash_descriptor]
  · simp [Descriptors.find_hash_descriptor, h12]
  · simp [Descriptors.find_hash_descriptor, h13, h23]
  · intro id digest image_size flags htf
    simp [save_hash_record, htf]

/-- Witness for C6 at the three concrete known partitions and an unknown
fourth identifier (extracting the count conjunct). -/
theorem claim_C6_witness :
    Descriptors.num_hash_descriptor
      ⟨[⟨PartitionName.kernel, [1], 1, 0⟩, ⟨PartitionName.initrdNormal, [2], 2, 0⟩,
        ⟨PartitionName.initrdDebug, [3], 3, 0⟩]⟩ = 3 :=
  (claim_C6_three_partition_round_trip
    ⟨PartitionName.kernel, [1], 1, 0⟩ ⟨PartitionName.initrdNormal, [2], 2, 0⟩
    ⟨PartitionName.initrdDebug, [3], 3, 0⟩
    (by decide) (by decide) (by decide)).2.2.2.1

/-- C7: `find_hash_descriptor partition` succeeds — returning a stored
descriptor with that `partition_name` — iff the store holds a hash descriptor
for that partition, and otherwise returns `InvalidMetadata`; on the empty store
it reports not-found for every partition. -/
theorem claim_C7_find_hash_descriptor (s : Descriptors) (n : PartitionName) :
    ((∃ d ∈ s.hash_descriptors, d.partition_name = n) ↔
      (∃ d, s.find_hash_descriptor n = Except.ok d ∧ d ∈ s.hash_descriptors ∧
        d.partition_name = n)) ∧
    ((¬ ∃ d ∈ s.hash_descriptors, d.partition_name = n) →
      s.find_hash_descriptor n = .error AvbSlotVerifyError.InvalidMetadata) ∧
    (Descriptors.mk []).find_hash_descriptor n =
      .error AvbSlotVerifyError.InvalidMetadata := by
  have hbase : (Descriptors.mk []).find_hash_descriptor n =
      .error AvbSlotVerifyError.InvalidMetadata := rfl
  cases hfind : s.hash_descriptors.find? (fun d => decide (d.partition_name = n)) with
  | some d =>
      have hmem := List.mem_of_find?_eq_some hfind
      have hname : d.partition_name = n := by
        have := List.find?_some hfind
        simpa using this
      have hres : s.find_hash_descriptor n = .ok d := by
        unfold Descriptors.find_hash_descriptor
        rw [hfind]
      exact ⟨⟨fun _ => ⟨d, hres, hmem, hname⟩, fun _ => ⟨d, hmem, hname⟩⟩,
        fun hne => absurd ⟨d, hmem, hname⟩ hne, hbase⟩
  | none =>
      have hnone := List.find?_eq_none.mp hfind
      have hres : s.find_hash_descriptor n = .error AvbSlotVerifyError.InvalidMetadata := by
        unfold Descriptors.find_hash_descriptor
        rw [hfind]
      refine ⟨⟨?_, ?_⟩, fun _ => hres, hbase⟩
      · rintro ⟨d, hmem, hname⟩
        have hne : d.partition_name ≠ n := by simpa using hnone d hmem
        exact absurd hname hne
      · rintro ⟨d, hok, -, -⟩
        rw [hres] at hok
        cases hok

/-- C10: every store reachable from empty holds at most
`NUM_OF_KNOWN_PARTITIONS` descriptors, and no push on a reachable store ever
reaches the out-of-capacity panic of the backing fixed array: an appending push
has a fresh partition name, the stored names are pairwise distinct, and names
range over a closed set of exactly `NUM_OF_KNOWN_PARTITIONS` values, so the
length is strictly below capacity at the append. -/
theorem claim_C10_push_never_panics (s : Descriptors) (h : Reachable s) :
    s.num_hash_descriptor ≤ PartitionName.NUM_OF_KNOWN_PARTITIONS ∧
    ∀ d, s.push_hash_descriptor d ≠ PushOutcome.panicked := by
  have hnd := reachable_nodup h
  have hlen : s.hash_descriptors.length ≤ PartitionName.NUM_OF_KNOWN_PARTITIONS := by
    have hc := hnd.length_le_card
    rw [PartitionName.card_eq] at hc
    simpa using hc
  refine ⟨hlen, ?_⟩
  intro d hpan
  unfold Descriptors.push_hash_descriptor at hpan
  by_cases hdup :
      s.hash_descriptors.any (fun x => decide (x.partition_name = d.partition_name)) = true
  · rw [if_pos hdup] at hpan
    cases hpan
  · rw [if_neg hdup] at hpan
    by_cases hlt : s.hash_descriptors.length < PartitionName.NUM_OF_KNOWN_PARTITIONS
    · rw [if_pos hlt] at hpan
      cases hpan
    · apply hlt
      have hnotin : d.partition_name ∉ s.hash_descriptors.map HashDescriptor.partition_name := by
        simp only [List.any_eq_true, decide_eq_true_eq] at hdup
        simp only [List.mem_map]
        rintro ⟨x, hx, hEq⟩
        exact hdup ⟨x, hx, hEq⟩
      have hcons :
          (d.partition_name :: s.hash_descriptors.map HashDescriptor.partition_name).Nodup :=
        List.nodup_cons.mpr ⟨hnotin, hnd⟩
      have hc := hcons.length_le_card
      rw [PartitionName.card_eq] at hc
      simp only [List.length_cons, List.length_map] at hc
      omega

/-- Witness for C10 at the empty store. -/
theorem claim_C10_witness :
    (Descriptors.mk []).num_hash_descriptor ≤ PartitionName.NUM_OF_KNOWN_PARTITIONS ∧
    ∀ d, (Descriptors.mk []).push_hash_descriptor d ≠ PushOutcome.panicked :=
  claim_C10_push_never_panics _ Reachable.empty

/-! ## Claims about the exception engine -/

/-- C1: the exception syndrome classifier is a total, deterministic,
side-effect-free function applying first-match-wins order: the exact external
abort code first, then the masked translation-fault match, then the masked
permission-fault match, otherwise `Unknown(raw)`; with the four concrete values
of the claim, and repeated calls agreeing (the embedding is a pure function,
so determinism is reflexivity). -/
theorem claim_C1_classifier_first_match (esr : Nat) :
    (esr = Esr.EXT_DABT_32BIT → Esr.ofUsize esr = Esr.DataAbortSyncExternalAbort) ∧
    (esr ≠ Esr.EXT_DABT_32BIT →
      esr &&& Esr.TRANSL_FAULT_ISS_MASK_32BIT = Esr.TRANSL_FAULT_BASE_32BIT →
      Esr.ofUsize esr = Esr.DataAbortTranslationFault) ∧
    (esr ≠ Esr.EXT_DABT_32BIT →
      esr &&& Esr.TRANSL_FAULT_ISS_MASK_32BIT ≠ Esr.TRANSL_FAULT_BASE_32BIT →
      esr &&& Esr.PERM_FAULT_ISS_MASK_32BIT = Esr.PERM_FAULT_BASE_32BIT →
      Esr.ofUsize esr = Esr.DataAbortPermissionFault) ∧
    (esr ≠ Esr.EXT_DABT_32BIT →
      esr &&& Esr.TRANSL_FAULT_ISS_MASK_32BIT ≠ Esr.TRANSL_FAULT_BASE_32BIT →
      esr &&& Esr.PERM_FAULT_ISS_MASK_32BIT ≠ Esr.PERM_FAULT_BASE_32BIT →
      Esr.ofUsize esr = Esr.Unknown esr) ∧
    Esr.ofUsize 0x96000010 = Esr.DataAbortSyncExternalAbort ∧
    Esr.ofUsize 0x96000004 = Esr.DataAbortTranslationFault ∧
    Esr.ofUsize 0x9600004C = Esr.DataAbortPermissionFault ∧
    Esr.ofUsize 0 = Esr.Unknown 0 ∧
    Esr.ofUsize esr = Esr.ofUsize esr := by
  refine ⟨?_, ?_, ?_, ?_, by decide, by decide, by decide, by decide, rfl⟩
  · intro h1
    simp [Esr.ofUsize, h1]
  · intro h1 h2
    simp [Esr.ofUsize, h1, h2]
  · intro h1 h2 h3
    simp [Esr.ofUsize, h1, h2, h3]
  · intro h1 h2 h3
    simp [Esr.ofUsize, h1, h2, h3]

/-- C2: the dispatcher's behaviour for every classified syndrome and fault
address: on a translation fault, a contended lock gives `PageTableUnavailable`,
an acquired-but-uninitialized state gives `PageTableNotInitialized`, and an
initialized tracker is delegated to via `handle_mmio_fault`, its error wrapped
as `InternalError`; identically for permission faults via
`handle_permission_fault`; a synchronous external abort or unknown syndrome
gives `UnknownException` for every lock state (the Global Memory State is never
consulted). -/
theorem claim_C2_dispatch (far : Nat) (st : LockState) (m : MemoryTracker) :
    (st = LockState.contended →
      handle_exception Esr.DataAbortTranslationFault far st =
        .error HandleExceptionError.PageTableUnavailable ∧
      handle_exception Esr.DataAbortPermissionFault far st =
        .error HandleExceptionError.PageTableUnavailable) ∧
    (st = LockState.available none →
      handle_exception Esr.DataAbortTranslationFault far st =
        .error HandleExceptionError.PageTableNotInitialized ∧
      handle_exception Esr.DataAbortPermissionFault far st =
        .error HandleExceptionError.PageTableNotInitialized) ∧
    (handle_exception Esr.DataAbortTranslationFault far (LockState.available (some m)) =
      (m.handle_mmio_fault far).mapError HandleExceptionError.InternalError) ∧
    (handle_exception Esr.DataAbortPermissionFault far (LockState.available (some m)) =
      (m.handle_permission_fault far).mapError HandleExceptionError.InternalError) ∧
    (∀ raw, ∀ st' : LockState,
      handle_exception Esr.DataAbortSyncExternalAbort far st' =
        .error HandleExceptionError.UnknownException ∧
      handle_exception (Esr.Unknown raw) far st' =
        .error HandleExceptionError.UnknownException) := by
  refine ⟨?_, ?_, rfl, rfl, ?_⟩
  · rintro rfl
    exact ⟨rfl, rfl⟩
  · rintro rfl
    exact ⟨rfl, rfl⟩
  · intro raw st'
    exact ⟨rfl, rfl⟩

/-- C3: for every same-level synchronous exception entry, a successful dispatch
returns normally and never reboots; a failed dispatch reboots exactly once,
emitting the handler identity, error, syndrome, fault address and return
address first — unless the fault is a synchronous external abort on the UART
page, in which case nothing is printed but the reboot still occurs; and no path
logs a failure without rebooting. -/
theorem claim_C3_sync_handler_fail_stop (consoleBase esrRaw far elr : Nat)
    (st : LockState) :
    (∀ u, handle_exception (Esr.ofUsize esrRaw) far st = .ok u →
      sync_exception_current consoleBase esrRaw far elr st =
        [Event.suppressAcquire, Event.suppressRelease] ∧
      Event.reboot ∉ sync_exception_current consoleBase esrRaw far elr st) ∧
    (∀ e, handle_exception (Esr.ofUsize esrRaw) far st = .error e →
      rebootsExactlyOnce (sync_exception_current consoleBase esrRaw far elr st) ∧
      (handling_uart_exception consoleBase (Esr.ofUsize esrRaw) far = true →
        sync_exception_current consoleBase esrRaw far elr st =
          [Event.suppressAcquire, Event.reboot]) ∧
      (handling_uart_exception consoleBase (Esr.ofUsize esrRaw) far = false →
        sync_exception_current consoleBase esrRaw far elr st =
          [Event.suppressAcquire, Event.log "sync_exception_current",
            Event.logError e, Event.logDetails (Esr.ofUsize esrRaw) far elr,
            Event.reboot])) ∧
    (∀ e, Event.logError e ∈ sync_exception_current consoleBase esrRaw far elr st →
      Event.reboot ∈ sync_exception_current consoleBase esrRaw far elr st) := by
  cases hdis : handle_exception (Esr.ofUsize esrRaw) far st with
  | ok u =>
      have htrace : sync_exception_current consoleBase esrRaw far elr st =
          [Event.suppressAcquire, Event.suppressRelease] := by
        simp [sync_exception_current, hdis]
      refine ⟨fun _ _ => ⟨htrace, ?_⟩, fun e he => ?_, fun e he => ?_⟩
      · rw [htrace]
        simp
      · cases he
      · rw [htrace] at he
        simp at he
  | error e0 =>
      cases huart : handling_uart_exception consoleBase (Esr.ofUsize esrRaw) far with
      | true =>
          have htrace : sync_exception_current consoleBase esrRaw far elr st =
              [Event.suppressAcquire, Event.reboot] := by
            simp [sync_exception_current, hdis, huart]
          refine ⟨fun u hu => ?_, fun e he => ?_, fun e he => ?_⟩
          · cases hu
          · refine ⟨⟨[Event.suppressAcquire], by rw [htrace]; rfl, by simp⟩,
              fun _ => htrace, fun hcon => ?_⟩
            cases hcon
          · rw [htrace]
            simp
      | false =>
          have htrace : sync_exception_current consoleBase esrRaw far elr st =
              [Event.suppressAcquire, Event.log "sync_exception_current",
                Event.logError e0, Event.logDetails (Esr.ofUsize esrRaw) far elr,
                Event.reboot] := by
            simp [sync_exception_current, hdis, huart]
          refine ⟨fun u hu => ?_, fun e he => ?_, fun e he => ?_⟩
          · cases hu
          · cases he
            refine ⟨⟨[Event.suppressAcquire, Event.log "sync_exception_current",
              Event.logError e0, Event.logDetails (Esr.ofUsize esrRaw) far elr],
              by rw [htrace]; rfl, by simp⟩, fun hcon => ?_, fun _ => htrace⟩
            cases hcon
          · rw [htrace]
            simp

/-- C8 as stated is false on the code at a concrete input: a failing dispatch
(raw syndrome `0`, contended lock) takes the reboot path, and that trace
contains the reboot but no release of the logger suppression — the reboot
primitive never returns, so the guard acquired at entry is never dropped on
that path. -/
theorem claim_C8_counterexample :
    Event.reboot ∈ sync_exception_current 0 0 0 0 LockState.contended ∧
    Event.suppressRelease ∉ sync_exception_current 0 0 0 0 LockState.contended := by
  decide

/-- C8 amended: the same-level synchronous handler acquires the scoped
suppression of the diagnostic-output sink as its very first action and holds it
for the duration of handling; on the normal-return exit path the suppression is
released as the final action; on the reboot path the non-returning reboot
primitive is invoked while the suppression is still held, and the release never
occurs (the guard's destructor does not run past a non-returning call). -/
theorem claim_C8_suppression_scope (consoleBase esrRaw far elr : Nat)
    (st : LockState) :
    (sync_exception_current consoleBase esrRaw far elr st).head? =
      some Event.suppressAcquire ∧
    (Event.reboot ∉ sync_exception_current consoleBase esrRaw far elr st →
      (sync_exception_current consoleBase esrRaw far elr st).getLast? =
        some Event.suppressRelease) ∧
    (Event.reboot ∈ sync_exception_current consoleBase esrRaw far elr st →
      Event.suppressRelease ∉ sync_exception_current consoleBase esrRaw far elr st) := by
  cases hdis : handle_exception (Esr.ofUsize esrRaw) far st with
  | ok u =>
      have htrace : sync_exception_current consoleBase esrRaw far elr st =
          [Event.suppressAcquire, Event.suppressRelease] := by
        simp [sync_exception_current, hdis]
      rw [htrace]
      refine ⟨rfl, fun _ => rfl, fun hmem => ?_⟩
      simp at hmem
  | error e0 =>
      cases huart : handling_uart_exception consoleBase (Esr.ofUsize esrRaw) far with
      | true =>
          have htrace : sync_exception_current consoleBase esrRaw far elr st =
              [Event.suppressAcquire, Event.reboot] := by
            simp [sync_exception_current, hdis, huart]
          rw [htrace]
          refine ⟨rfl, fun hnot => ?_, fun _ => by simp⟩
          simp at hnot
      | false =>
          have htrace : sync_exception_current consoleBase esrRaw far elr st =
              [Event.suppressAcquire, Event.log "sync_exception_current",
                Event.logError e0, Event.logDetails (Esr.ofUsize esrRaw) far elr,
                Event.reboot] := by
            simp [sync_exception_current, hdis, huart]
          rw [htrace]
          refine ⟨rfl, fun hnot => ?_, fun _ => by simp⟩
          simp at hnot

/-- C9: each of the seven vector entry points other than same-level synchronous
unconditionally logs its handler identity (plus the raw syndrome for
`serr_current`, `sync_lower` and `serr_lower`) and then invokes the reboot
primitive, on every invocation regardless of its arguments; each trace ends in
the non-returning reboot, so none returns normally or attempts recovery. -/
theorem claim_C9_other_vectors_fail_stop (elr spsr esrRaw : Nat) :
    irq_current elr spsr = [Event.log "irq_current", Event.reboot] ∧
    fiq_current elr spsr = [Event.log "fiq_current", Event.reboot] ∧
    serr_current esrRaw elr spsr =
      [Event.log "serr_current", Event.logEsr esrRaw, Event.reboot] ∧
    sync_lower esrRaw elr spsr =
      [Event.log "sync_lower", Event.logEsr esrRaw, Event.reboot] ∧
    irq_lower elr spsr = [Event.log "irq_lower", Event.reboot] ∧
    fiq_lower elr spsr = [Event.log "fiq_lower", Event.reboot] ∧
    serr_lower esrRaw elr spsr =
      [Event.log "serr_lower", Event.logEsr esrRaw, Event.reboot] ∧
    rebootsExactlyOnce (irq_current elr spsr) ∧
    rebootsExactlyOnce (fiq_current elr spsr) ∧
    rebootsExactlyOnce (serr_current esrRaw elr spsr) ∧
    rebootsExactlyOnce (sync_lower esrRaw elr spsr) ∧
    rebootsExactlyOnce (irq_lower elr spsr) ∧
    rebootsExactlyOnce (fiq_lower elr spsr) ∧
    rebootsExactlyOnce (serr_lower esrRaw elr spsr) := by
  refine ⟨rfl, rfl, rfl, rfl, rfl, rfl, rfl, ?_, ?_, ?_, ?_, ?_, ?_, ?_⟩
  · exact ⟨[Event.log "irq_current"], rfl, by simp⟩
  · exact ⟨[Event.log "fiq_current"], rfl, by simp⟩
  · exact ⟨[Event.log "serr_current", Event.logEsr esrRaw], rfl, by simp⟩
  · exact ⟨[Event.log "sync_lower", Event.logEsr esrRaw], rfl, by simp⟩
  · exact ⟨[Event.log "irq_lower"], rfl, by simp⟩
  · exact ⟨[Event.log "fiq_lower"], rfl, by simp⟩
  · exact ⟨[Event.log "serr_lower", Event.logEsr esrRaw], rfl, by simp⟩

end Pvmfw
